import Mathlib

/-!
Shallow embedding of the Spellman high-voltage controller device server
(src/bin/Spellman.py).  Physical values (kilovolts, milliamps) are modelled
as rationals, Python ints as Lean integers, and the line-delimited wire
protocol over lists of characters.  Each device operation is a pure function
of the device state and the bytes the socket would deliver to its receive
calls; it returns the operation result, the new state, and the list of
commands sent to the hardware during the call.
-/

/-- The line-feed terminator constant LF = chr(0x0A). -/
def LF : Char := Char.ofNat 10

/-- Model of Python bytes.split(sep): splits a byte sequence at every
occurrence of the separator, keeping empty segments.  Always returns at
least one segment. -/
def bytesSplit (sep : Char) : List Char → List (List Char)
  | [] => [[]]
  | c :: rest =>
    if c = sep then
      [] :: bytesSplit sep rest
    else
      match bytesSplit sep rest with
      | [] => [[c]]
      | s :: ss => (c :: s) :: ss

/-- Error outcomes of the device operations.  voltageExceeded and
currentExceeded embed VoltageExceededError and CurrentExceededError (the
DAC range errors); valueError embeds the bare ValueError raised on an
unexpected acknowledgement; socketError embeds the exception raised by
receive when no terminator is present in the received data. -/
inductive SpellmanError where
  | voltageExceeded (dac_value : ℤ)
  | currentExceeded (dac_value : ℤ)
  | valueError
  | socketError
deriving DecidableEq, Repr

/-- SpellmanEthernetInterface.receive: reads one batch of bytes from the
socket; if it contains the LF terminator, splits on LF and returns the
first segment decoded; otherwise raises.  The segments after the first are
bound to a throwaway variable in the source and dropped. -/
def receive (data : List Char) : Except SpellmanError String :=
  if LF ∈ data then
    Except.ok (String.mk ((bytesSplit LF data).headD []))
  else
    Except.error SpellmanError.socketError

/-- Consecutive calls of receive: each call operates on the fresh batch of
bytes its own socket read returns; nothing is carried over from earlier
calls (the source keeps no buffer between calls). -/
def receive_calls (reads : List (List Char)) : List (Except SpellmanError String) :=
  reads.map receive

/-- Device configuration supplied through device properties. -/
structure SpellmanConfig where
  voltage_range : ℚ
  current_range : ℚ
  filament_current_range : ℚ
  dac_resolution : ℤ
  adc_resolution : ℤ
deriving DecidableEq, Repr

/-- voltage set factor computed in init_device:
voltage_range / dac_resolution. -/
def voltage_set_factor (cfg : SpellmanConfig) : ℚ :=
  cfg.voltage_range / (cfg.dac_resolution : ℚ)

/-- current set factor computed in init_device:
current_range / dac_resolution. -/
def current_set_factor (cfg : SpellmanConfig) : ℚ :=
  cfg.current_range / (cfg.dac_resolution : ℚ)

/-- voltage get factor computed in init_device:
voltage_range / adc_resolution. -/
def voltage_get_factor (cfg : SpellmanConfig) : ℚ :=
  cfg.voltage_range / (cfg.adc_resolution : ℚ)

/-- current get factor computed in init_device:
current_range / adc_resolution. -/
def current_get_factor (cfg : SpellmanConfig) : ℚ :=
  cfg.current_range / (cfg.adc_resolution : ℚ)

/-- filament current get factor computed in init_device:
filament_current_range / adc_resolution. -/
def filament_current_get_factor (cfg : SpellmanConfig) : ℚ :=
  cfg.filament_current_range / (cfg.adc_resolution : ℚ)

/-- The mutable setpoint store of the device instance. -/
structure SpellmanState where
  voltage_setpoint : ℚ
  current_setpoint : ℚ
deriving DecidableEq, Repr

/-- The setpoint store right after init_device: both setpoints 0.0. -/
def init_state : SpellmanState :=
  { voltage_setpoint := 0, current_setpoint := 0 }

/-- The command frames the device sends, one constructor per format string
in the source. -/
inductive Cmd where
  | setV (code : ℤ)
  | setC (code : ℤ)
  | queryV
  | queryC
  | queryFil
  | queryIlock
  | on
  | off
  | idn
deriving DecidableEq, Repr

/-- The wire text of each command, as built by the source before the LF
terminator is appended by send. -/
def Cmd.render : Cmd → String
  | .setV code => ":V " ++ toString code
  | .setC code => ":C " ++ toString code
  | .queryV => ":V?"
  | .queryC => ":C?"
  | .queryFil => ":FIL?"
  | .queryIlock => ":ILOCK?"
  | .on => ":ON"
  | .off => ":OFF"
  | .idn => "*IDN?"

/-- Spellman.set_voltage: floor-convert the requested voltage to a DAC
code, reject codes outside range(0, dac_resolution) before anything is
sent, otherwise send ":V code", read one response and commit the
quantized setpoint only on the "OK" acknowledgement. -/
def set_voltage (cfg : SpellmanConfig) (st : SpellmanState) (voltage : ℚ)
    (data : List Char) : Except SpellmanError Unit × SpellmanState × List Cmd :=
  let dac_value : ℤ := ⌊voltage / voltage_set_factor cfg⌋
  if 0 ≤ dac_value ∧ dac_value < cfg.dac_resolution then
    let setpoint : ℚ := (dac_value : ℚ) * voltage_set_factor cfg
    match receive data with
    | Except.ok response =>
      if response = "OK" then
        (Except.ok (), { st with voltage_setpoint := setpoint }, [Cmd.setV dac_value])
      else
        (Except.error SpellmanError.valueError, st, [Cmd.setV dac_value])
    | Except.error e => (Except.error e, st, [Cmd.setV dac_value])
  else
    (Except.error (SpellmanError.voltageExceeded dac_value), st, [])

/-- Spellman.set_current, same protocol as set_voltage on the current
channel with command ":C code". -/
def set_current (cfg : SpellmanConfig) (st : SpellmanState) (current : ℚ)
    (data : List Char) : Except SpellmanError Unit × SpellmanState × List Cmd :=
  let dac_value : ℤ := ⌊current / current_set_factor cfg⌋
  if 0 ≤ dac_value ∧ dac_value < cfg.dac_resolution then
    let setpoint : ℚ := (dac_value : ℚ) * current_set_factor cfg
    match receive data with
    | Except.ok response =>
      if response = "OK" then
        (Except.ok (), { st with current_setpoint := setpoint }, [Cmd.setC dac_value])
      else
        (Except.error SpellmanError.valueError, st, [Cmd.setC dac_value])
    | Except.error e => (Except.error e, st, [Cmd.setC dac_value])
  else
    (Except.error (SpellmanError.currentExceeded dac_value), st, [])

/-- Read of the Voltage Setpoint attribute: returns the stored value. -/
def voltage_setpoint_read (st : SpellmanState) : ℚ :=
  st.voltage_setpoint

/-- Read of the Current Setpoint attribute: returns the stored value. -/
def current_setpoint_read (st : SpellmanState) : ℚ :=
  st.current_setpoint

/-- Spellman.voltage readback: sends ":V?", parses the response as a float
(the parse parameter stands for the Python float builtin) and scales by the
voltage get factor.  The setpoint store is never touched. -/
def voltage_read (cfg : SpellmanConfig) (st : SpellmanState) (data : List Char)
    (parse : String → Option ℚ) : Except SpellmanError ℚ × SpellmanState × List Cmd :=
  match receive data with
  | Except.ok response =>
    match parse response with
    | some x => (Except.ok (x * voltage_get_factor cfg), st, [Cmd.queryV])
    | none => (Except.error SpellmanError.valueError, st, [Cmd.queryV])
  | Except.error e => (Except.error e, st, [Cmd.queryV])

/-- Spellman.current readback, same shape with ":C?" and the current get
factor. -/
def current_read (cfg : SpellmanConfig) (st : SpellmanState) (data : List Char)
    (parse : String → Option ℚ) : Except SpellmanError ℚ × SpellmanState × List Cmd :=
  match receive data with
  | Except.ok response =>
    match parse response with
    | some x => (Except.ok (x * current_get_factor cfg), st, [Cmd.queryC])
    | none => (Except.error SpellmanError.valueError, st, [Cmd.queryC])
  | Except.error e => (Except.error e, st, [Cmd.queryC])

/-- Spellman.filament readback, same shape with ":FIL?" and the filament
current get factor. -/
def filament_read (cfg : SpellmanConfig) (st : SpellmanState) (data : List Char)
    (parse : String → Option ℚ) : Except SpellmanError ℚ × SpellmanState × List Cmd :=
  match receive data with
  | Except.ok response =>
    match parse response with
    | some x => (Except.ok (x * filament_current_get_factor cfg), st, [Cmd.queryFil])
    | none => (Except.error SpellmanError.valueError, st, [Cmd.queryFil])
  | Except.error e => (Except.error e, st, [Cmd.queryFil])

/-- Spellman.interlock: sends ":ILOCK?", reads one response, and when the
response compares equal to the string "open" followed by a line feed it
zeroes both stored setpoints; returns the response text. -/
def interlock (st : SpellmanState) (data : List Char) :
    Except SpellmanError String × SpellmanState × List Cmd :=
  match receive data with
  | Except.ok response =>
    if response = String.mk ['o', 'p', 'e', 'n', LF] then
      (Except.ok response,
        { voltage_setpoint := 0, current_setpoint := 0 }, [Cmd.queryIlock])
    else
      (Except.ok response, st, [Cmd.queryIlock])
  | Except.error e => (Except.error e, st, [Cmd.queryIlock])

/-- Spellman.enable: commits voltage 0.0 and current 0.0 through the
setpoint protocol, then sends ":ON" and returns the received
acknowledgement.  An exception in either set call propagates before ":ON"
is sent. -/
def enable (cfg : SpellmanConfig) (st : SpellmanState) (d1 d2 d3 : List Char) :
    Except SpellmanError String × SpellmanState × List Cmd :=
  match set_voltage cfg st 0 d1 with
  | (Except.ok _, st1, sent1) =>
    match set_current cfg st1 0 d2 with
    | (Except.ok _, st2, sent2) =>
      match receive d3 with
      | Except.ok r => (Except.ok r, st2, sent1 ++ sent2 ++ [Cmd.on])
      | Except.error e => (Except.error e, st2, sent1 ++ sent2 ++ [Cmd.on])
    | (Except.error e, st2, sent2) => (Except.error e, st2, sent1 ++ sent2)
  | (Except.error e, st1, sent1) => (Except.error e, st1, sent1)

/-- Spellman.disable: sends ":OFF" and returns the acknowledgement. -/
def disable (st : SpellmanState) (data : List Char) :
    Except SpellmanError String × SpellmanState × List Cmd :=
  match receive data with
  | Except.ok r => (Except.ok r, st, [Cmd.off])
  | Except.error e => (Except.error e, st, [Cmd.off])

/-- Spellman.IDN: sends "*IDN?" and returns the response. -/
def IDN (st : SpellmanState) (data : List Char) :
    Except SpellmanError String × SpellmanState × List Cmd :=
  match receive data with
  | Except.ok r => (Except.ok r, st, [Cmd.idn])
  | Except.error e => (Except.error e, st, [Cmd.idn])

/-- Scaling engine, commanding direction: the inline expression
math.floor(value / factor) with factor = range / dac_resolution. -/
def value_to_code (value range : ℚ) (dac_resolution : ℤ) : ℤ :=
  ⌊value / (range / (dac_resolution : ℚ))⌋

/-- Scaling engine, telemetry direction: the inline expression
code * factor with factor = range / adc_resolution. -/
def code_to_value (code : ℤ) (range : ℚ) (adc_resolution : ℤ) : ℚ :=
  (code : ℚ) * (range / (adc_resolution : ℚ))

/-- States reachable from the freshly initialized store through the
device operations, with arbitrary requested values and arbitrary socket
data at each step. -/
inductive Reachable (cfg : SpellmanConfig) : SpellmanState → Prop where
  | init : Reachable cfg init_state
  | stepSetV (st : SpellmanState) (v : ℚ) (d : List Char) :
      Reachable cfg st → Reachable cfg (set_voltage cfg st v d).2.1
  | stepSetC (st : SpellmanState) (i : ℚ) (d : List Char) :
      Reachable cfg st → Reachable cfg (set_current cfg st i d).2.1
  | stepInterlock (st : SpellmanState) (d : List Char) :
      Reachable cfg st → Reachable cfg (interlock st d).2.1
  | stepEnable (st : SpellmanState) (d1 d2 d3 : List Char) :
      Reachable cfg st → Reachable cfg (enable cfg st d1 d2 d3).2.1
  | stepDisable (st : SpellmanState) (d : List Char) :
      Reachable cfg st → Reachable cfg (disable st d).2.1
  | stepIDN (st : SpellmanState) (d : List Char) :
      Reachable cfg st → Reachable cfg (IDN st d).2.1
  | stepReadV (st : SpellmanState) (d : List Char) (parse : String → Option ℚ) :
      Reachable cfg st → Reachable cfg (voltage_read cfg st d parse).2.1
  | stepReadC (st : SpellmanState) (d : List Char) (parse : String → Option ℚ) :
      Reachable cfg st → Reachable cfg (current_read cfg st d parse).2.1
  | stepReadFil (st : SpellmanState) (d : List Char) (parse : String → Option ℚ) :
      Reachable cfg st → Reachable cfg (filament_read cfg st d parse).2.1

/-- A stored setpoint value that is an exact multiple of the set factor by
a code inside the DAC range. -/
def SetpointQuantized (cfg : SpellmanConfig) (factor x : ℚ) : Prop :=
  ∃ k : ℤ, 0 ≤ k ∧ k < cfg.dac_resolution ∧ x = (k : ℚ) * factor

/-- Both stored setpoints are quantized in-range values. -/
def SpellmanInv (cfg : SpellmanConfig) (st : SpellmanState) : Prop :=
  SetpointQuantized cfg (voltage_set_factor cfg) st.voltage_setpoint ∧
  SetpointQuantized cfg (current_set_factor cfg) st.current_setpoint

lemma bytesSplit_ne_nil (sep : Char) (l : List Char) : bytesSplit sep l ≠ [] := by
  induction l with
  | nil => simp [bytesSplit]
  | cons c rest ih =>
    by_cases h : c = sep
    · simp [bytesSplit, h]
    · cases hs : bytesSplit sep rest with
      | nil => exact absurd hs ih
      | cons s ss => simp [bytesSplit, h, hs]

lemma bytesSplit_headD (sep : Char) (l : List Char) :
    (bytesSplit sep l).headD [] = l.takeWhile (fun c => c != sep) := by
  induction l with
  | nil => simp [bytesSplit]
  | cons c rest ih =>
    by_cases h : c = sep
    · simp [bytesSplit, h, List.takeWhile]
    · cases hs : bytesSplit sep rest with
      | nil => exact absurd hs (bytesSplit_ne_nil sep rest)
      | cons s ss =>
        have hh : s = rest.takeWhile (fun c => c != sep) := by
          have := ih
          rw [hs] at this
          simpa using this
        have hb : (c != sep) = true := by simp [h]
        simp [bytesSplit, h, hs, List.takeWhile, hh, hb]

lemma takeWhile_append_sep (sep : Char) (pre rest : List Char) (h : sep ∉ pre) :
    (pre ++ sep :: rest).takeWhile (fun c => c != sep) = pre := by
  induction pre with
  | nil => simp [List.takeWhile]
  | cons c p ih =>
    have hc : c ≠ sep := by
      intro hcs
      exact h (by simp [hcs])
    have hp : sep ∉ p := fun hm => h (List.mem_cons_of_mem _ hm)
    have hb : (c != sep) = true := by simp [hc]
    simp [List.takeWhile, hb, ih hp]

lemma receive_ok_no_LF (data : List Char) (s : String)
    (h : receive data = Except.ok s) : LF ∉ s.toList := by
  unfold receive at h
  by_cases hm : LF ∈ data
  · simp only [hm, if_pos, Except.ok.injEq] at h
    subst h
    show LF ∉ (bytesSplit LF data).headD []
    rw [bytesSplit_headD]
    intro hmem
    have := List.mem_takeWhile_imp hmem
    simp at this
  · simp [hm] at h

lemma interlock_state_unchanged (st : SpellmanState) (d : List Char) :
    (interlock st d).2.1 = st := by
  unfold interlock
  cases hr : receive d with
  | error e => simp
  | ok response =>
    have hne : response ≠ String.mk ['o', 'p', 'e', 'n', LF] := by
      intro he
      have := receive_ok_no_LF d response hr
      rw [he] at this
      exact this (by simp [String.toList, String.mk])
    simp [hne]

/-- Claim C1: the spec requires that an interlock query whose response
reports the open (tripped) status resets both stored setpoints to 0.0.
The code compares the received line against the text "open" followed by a
line feed, but receive strips everything from the first line feed onward,
so the comparison never succeeds: on the tripped-status frame
"open" ++ LF the stored setpoints (here 5 and 3) are left unchanged. -/
theorem interlock_open_frame_leaves_setpoints :
    interlock { voltage_setpoint := 5, current_setpoint := 3 }
        ("open".toList ++ [LF]) =
      (Except.ok "open",
        { voltage_setpoint := 5, current_setpoint := 3 },
        [Cmd.queryIlock]) := by
  rfl

/-- Claim C5: receive fails with the transport error when the received
bytes contain no line-feed terminator, and returns the decoded segment
before the first terminator when they do. -/
theorem receive_terminator_behavior (data : List Char) :
    (LF ∉ data → receive data = Except.error SpellmanError.socketError) ∧
    (LF ∈ data →
      receive data = Except.ok (String.mk (data.takeWhile (fun c => c != LF)))) := by
  constructor
  · intro h
    simp [receive, h]
  · intro h
    unfold receive
    rw [if_pos h, bytesSplit_headD]

/-- Witness for receive_terminator_behavior at two concrete byte batches:
one of four bytes with no terminator, one holding "OK" then the
terminator and a trailing byte. -/
theorem receive_terminator_behavior_witness :
    receive ("ABCD".toList) = Except.error SpellmanError.socketError ∧
    receive ("OK".toList ++ LF :: "X".toList) =
      Except.ok (String.mk (("OK".toList ++ LF :: "X".toList).takeWhile (fun c => c != LF))) :=
  ⟨(receive_terminator_behavior _).1 (by decide),
   (receive_terminator_behavior _).2 (by decide)⟩

/-- Claim C10: when one receive call gets a batch holding a terminator,
it returns only the segment before the first terminator; the bytes after
it are dropped, and the next receive call sees only the fresh bytes of
its own socket read, with nothing buffered from the earlier batch. -/
theorem receive_discards_after_first_terminator (pre rest d2 : List Char)
    (h : LF ∉ pre) :
    receive_calls [pre ++ LF :: rest, d2] =
      [Except.ok (String.mk pre), receive d2] := by
  have h1 : LF ∈ pre ++ LF :: rest := by simp
  unfold receive_calls
  simp only [List.map]
  unfold receive
  rw [if_pos h1, bytesSplit_headD, takeWhile_append_sep _ _ _ h]

/-- Witness for receive_discards_after_first_terminator: the first batch
holds "OK", a terminator, and a further complete line; the second read
returns its own line untouched by the first batch. -/
theorem receive_discards_after_first_terminator_witness :
    receive_calls
        ["OK".toList ++ LF :: ("junk".toList ++ LF :: "more".toList),
         "X".toList ++ [LF]] =
      [Except.ok (String.mk "OK".toList), receive ("X".toList ++ [LF])] :=
  receive_discards_after_first_terminator "OK".toList
    ("junk".toList ++ LF :: "more".toList) ("X".toList ++ [LF]) (by decide)

lemma set_voltage_commit (cfg : SpellmanConfig) (st : SpellmanState) (v : ℚ)
    (d : List Char)
    (hv : 0 ≤ ⌊v / voltage_set_factor cfg⌋ ∧
      ⌊v / voltage_set_factor cfg⌋ < cfg.dac_resolution)
    (hr : receive d = Except.ok "OK") :
    set_voltage cfg st v d =
      (Except.ok (),
        { st with voltage_setpoint :=
            (⌊v / voltage_set_factor cfg⌋ : ℚ) * voltage_set_factor cfg },
        [Cmd.setV ⌊v / voltage_set_factor cfg⌋]) := by
  simp [set_voltage, hr, hv.1, hv.2]

lemma set_current_commit (cfg : SpellmanConfig) (st : SpellmanState) (i : ℚ)
    (d : List Char)
    (hi : 0 ≤ ⌊i / current_set_factor cfg⌋ ∧
      ⌊i / current_set_factor cfg⌋ < cfg.dac_resolution)
    (hr : receive d = Except.ok "OK") :
    set_current cfg st i d =
      (Except.ok (),
        { st with current_setpoint :=
            (⌊i / current_set_factor cfg⌋ : ℚ) * current_set_factor cfg },
        [Cmd.setC ⌊i / current_set_factor cfg⌋]) := by
  simp [set_current, hr, hi.1, hi.2]

lemma set_voltage_reject (cfg : SpellmanConfig) (st : SpellmanState) (v : ℚ)
    (d : List Char)
    (h : ¬(0 ≤ ⌊v / voltage_set_factor cfg⌋ ∧
      ⌊v / voltage_set_factor cfg⌋ < cfg.dac_resolution)) :
    set_voltage cfg st v d =
      (Except.error (SpellmanError.voltageExceeded ⌊v / voltage_set_factor cfg⌋),
        st, []) := by
  simp only [set_voltage]
  rw [if_neg h]

lemma set_current_reject (cfg : SpellmanConfig) (st : SpellmanState) (i : ℚ)
    (d : List Char)
    (h : ¬(0 ≤ ⌊i / current_set_factor cfg⌋ ∧
      ⌊i / current_set_factor cfg⌋ < cfg.dac_resolution)) :
    set_current cfg st i d =
      (Except.error (SpellmanError.currentExceeded ⌊i / current_set_factor cfg⌋),
        st, []) := by
  simp only [set_current]
  rw [if_neg h]

lemma set_voltage_unexpected (cfg : SpellmanConfig) (st : SpellmanState) (v : ℚ)
    (d : List Char) (r : String)
    (hv : 0 ≤ ⌊v / voltage_set_factor cfg⌋ ∧
      ⌊v / voltage_set_factor cfg⌋ < cfg.dac_resolution)
    (hr : receive d = Except.ok r) (hne : r ≠ "OK") :
    set_voltage cfg st v d =
      (Except.error SpellmanError.valueError, st,
        [Cmd.setV ⌊v / voltage_set_factor cfg⌋]) := by
  simp [set_voltage, hr, hv.1, hv.2, hne]

lemma set_current_unexpected (cfg : SpellmanConfig) (st : SpellmanState) (i : ℚ)
    (d : List Char) (r : String)
    (hi : 0 ≤ ⌊i / current_set_factor cfg⌋ ∧
      ⌊i / current_set_factor cfg⌋ < cfg.dac_resolution)
    (hr : receive d = Except.ok r) (hne : r ≠ "OK") :
    set_current cfg st i d =
      (Except.error SpellmanError.valueError, st,
        [Cmd.setC ⌊i / current_set_factor cfg⌋]) := by
  simp [set_current, hr, hi.1, hi.2, hne]

lemma set_voltage_recv_error (cfg : SpellmanConfig) (st : SpellmanState) (v : ℚ)
    (d : List Char) (e : SpellmanError)
    (hv : 0 ≤ ⌊v / voltage_set_factor cfg⌋ ∧
      ⌊v / voltage_set_factor cfg⌋ < cfg.dac_resolution)
    (hr : receive d = Except.error e) :
    set_voltage cfg st v d =
      (Except.error e, st, [Cmd.setV ⌊v / voltage_set_factor cfg⌋]) := by
  simp [set_voltage, hr, hv.1, hv.2]

lemma set_current_recv_error (cfg : SpellmanConfig) (st : SpellmanState) (i : ℚ)
    (d : List Char) (e : SpellmanError)
    (hi : 0 ≤ ⌊i / current_set_factor cfg⌋ ∧
      ⌊i / current_set_factor cfg⌋ < cfg.dac_resolution)
    (hr : receive d = Except.error e) :
    set_current cfg st i d =
      (Except.error e, st, [Cmd.setC ⌊i / current_set_factor cfg⌋]) := by
  simp [set_current, hr, hi.1, hi.2]

lemma set_voltage_sent_code (cfg : SpellmanConfig) (st : SpellmanState) (v : ℚ)
    (d : List Char) (c : ℤ) (hc : Cmd.setV c ∈ (set_voltage cfg st v d).2.2) :
    0 ≤ c ∧ c < cfg.dac_resolution := by
  by_cases hv : 0 ≤ ⌊v / voltage_set_factor cfg⌋ ∧
      ⌊v / voltage_set_factor cfg⌋ < cfg.dac_resolution
  · cases hr : receive d with
    | ok r =>
      by_cases hok : r = "OK"
      · subst hok
        rw [set_voltage_commit cfg st v d hv hr] at hc
        simp at hc
        subst hc
        exact hv
      · rw [set_voltage_unexpected cfg st v d r hv hr hok] at hc
        simp at hc
        subst hc
        exact hv
    | error e =>
      rw [set_voltage_recv_error cfg st v d e hv hr] at hc
      simp at hc
      subst hc
      exact hv
  · rw [set_voltage_reject cfg st v d hv] at hc
    simp at hc

lemma set_current_sent_code (cfg : SpellmanConfig) (st : SpellmanState) (i : ℚ)
    (d : List Char) (c : ℤ) (hc : Cmd.setC c ∈ (set_current cfg st i d).2.2) :
    0 ≤ c ∧ c < cfg.dac_resolution := by
  by_cases hi : 0 ≤ ⌊i / current_set_factor cfg⌋ ∧
      ⌊i / current_set_factor cfg⌋ < cfg.dac_resolution
  · cases hr : receive d with
    | ok r =>
      by_cases hok : r = "OK"
      · subst hok
        rw [set_current_commit cfg st i d hi hr] at hc
        simp at hc
        subst hc
        exact hi
      · rw [set_current_unexpected cfg st i d r hi hr hok] at hc
        simp at hc
        subst hc
        exact hi
    | error e =>
      rw [set_current_recv_error cfg st i d e hi hr] at hc
      simp at hc
      subst hc
      exact hi
  · rw [set_current_reject cfg st i d hi] at hc
    simp at hc

/-- Claim C2: a requested value whose floor-converted code falls outside
range(0, dac_resolution) makes the set operation fail with the
channel-specific range error, with the setpoint store unchanged and no
command sent; and every code carried by a set command that is sent lies
inside the DAC interval. -/
theorem set_range_check_rejects_and_bounds_codes (cfg : SpellmanConfig)
    (st : SpellmanState) :
    (∀ (v : ℚ) (d : List Char),
      (⌊v / voltage_set_factor cfg⌋ < 0 ∨
        cfg.dac_resolution ≤ ⌊v / voltage_set_factor cfg⌋) →
      set_voltage cfg st v d =
        (Except.error (SpellmanError.voltageExceeded ⌊v / voltage_set_factor cfg⌋),
          st, [])) ∧
    (∀ (i : ℚ) (d : List Char),
      (⌊i / current_set_factor cfg⌋ < 0 ∨
        cfg.dac_resolution ≤ ⌊i / current_set_factor cfg⌋) →
      set_current cfg st i d =
        (Except.error (SpellmanError.currentExceeded ⌊i / current_set_factor cfg⌋),
          st, [])) ∧
    (∀ (v : ℚ) (d : List Char) (c : ℤ),
      Cmd.setV c ∈ (set_voltage cfg st v d).2.2 →
      0 ≤ c ∧ c < cfg.dac_resolution) ∧
    (∀ (i : ℚ) (d : List Char) (c : ℤ),
      Cmd.setC c ∈ (set_current cfg st i d).2.2 →
      0 ≤ c ∧ c < cfg.dac_resolution) := by
  refine ⟨?_, ?_, ?_, ?_⟩
  · intro v d h
    exact set_voltage_reject cfg st v d (by omega)
  · intro i d h
    exact set_current_reject cfg st i d (by omega)
  · intro v d c hc
    exact set_voltage_sent_code cfg st v d c hc
  · intro i d c hc
    exact set_current_sent_code cfg st i d c hc

/-- Witness for set_range_check_rejects_and_bounds_codes: with 10 kV
range and 256 DAC codes, requesting 10 kV gives code 256 and is rejected
with the store untouched; requesting 5 kV sends code 128, which lies in
the DAC interval. -/
theorem set_range_check_rejects_and_bounds_codes_witness :
    set_voltage ⟨10, 10, 10, 256, 1024⟩ ⟨1, 2⟩ 10 [] =
      (Except.error (SpellmanError.voltageExceeded
        ⌊(10 : ℚ) / voltage_set_factor ⟨10, 10, 10, 256, 1024⟩⌋), ⟨1, 2⟩, []) ∧
    (0 ≤ ⌊(5 : ℚ) / voltage_set_factor ⟨10, 10, 10, 256, 1024⟩⌋ ∧
      ⌊(5 : ℚ) / voltage_set_factor ⟨10, 10, 10, 256, 1024⟩⌋ <
        (⟨10, 10, 10, 256, 1024⟩ : SpellmanConfig).dac_resolution) := by
  constructor
  · exact (set_range_check_rejects_and_bounds_codes _ _).1 10 []
      (Or.inr (by norm_num [voltage_set_factor]))
  · apply (set_range_check_rejects_and_bounds_codes ⟨10, 10, 10, 256, 1024⟩ ⟨1, 2⟩).2.2.1
      5 ("OK".toList ++ [LF])
    rw [set_voltage_commit ⟨10, 10, 10, 256, 1024⟩ ⟨1, 2⟩ 5 ("OK".toList ++ [LF])
      (by constructor <;> norm_num [voltage_set_factor]) rfl]
    simp

/-- Claim C3: an in-range request acknowledged with "OK" succeeds and
stores the quantized value floor(v / set_factor) * set_factor, which is
what a read of the setpoint attribute then returns. -/
theorem set_commit_stores_quantized_value (cfg : SpellmanConfig)
    (st : SpellmanState) (v i : ℚ) (dv di : List Char)
    (hv : 0 ≤ ⌊v / voltage_set_factor cfg⌋ ∧
      ⌊v / voltage_set_factor cfg⌋ < cfg.dac_resolution)
    (hrv : receive dv = Except.ok "OK")
    (hi : 0 ≤ ⌊i / current_set_factor cfg⌋ ∧
      ⌊i / current_set_factor cfg⌋ < cfg.dac_resolution)
    (hri : receive di = Except.ok "OK") :
    (set_voltage cfg st v dv).1 = Except.ok () ∧
    voltage_setpoint_read (set_voltage cfg st v dv).2.1 =
      (⌊v / voltage_set_factor cfg⌋ : ℚ) * voltage_set_factor cfg ∧
    (set_current cfg st i di).1 = Except.ok () ∧
    current_setpoint_read (set_current cfg st i di).2.1 =
      (⌊i / current_set_factor cfg⌋ : ℚ) * current_set_factor cfg := by
  rw [set_voltage_commit cfg st v dv hv hrv, set_current_commit cfg st i di hi hri]
  simp [voltage_setpoint_read, current_setpoint_read]

/-- Witness for set_commit_stores_quantized_value: both channels at 5
physical units with a 10-unit range and 256 codes, acknowledged with the
frame "OK" ++ LF. -/
theorem set_commit_stores_quantized_value_witness :
    (set_voltage ⟨10, 10, 10, 256, 1024⟩ ⟨1, 2⟩ 5 ("OK".toList ++ [LF])).1 =
      Except.ok () ∧
    voltage_setpoint_read
        (set_voltage ⟨10, 10, 10, 256, 1024⟩ ⟨1, 2⟩ 5 ("OK".toList ++ [LF])).2.1 =
      (⌊(5 : ℚ) / voltage_set_factor ⟨10, 10, 10, 256, 1024⟩⌋ : ℚ) *
        voltage_set_factor ⟨10, 10, 10, 256, 1024⟩ ∧
    (set_current ⟨10, 10, 10, 256, 1024⟩ ⟨1, 2⟩ 5 ("OK".toList ++ [LF])).1 =
      Except.ok () ∧
    current_setpoint_read
        (set_current ⟨10, 10, 10, 256, 1024⟩ ⟨1, 2⟩ 5 ("OK".toList ++ [LF])).2.1 =
      (⌊(5 : ℚ) / current_set_factor ⟨10, 10, 10, 256, 1024⟩⌋ : ℚ) *
        current_set_factor ⟨10, 10, 10, 256, 1024⟩ :=
  set_commit_stores_quantized_value ⟨10, 10, 10, 256, 1024⟩ ⟨1, 2⟩ 5 5
    ("OK".toList ++ [LF]) ("OK".toList ++ [LF])
    (by constructor <;> norm_num [voltage_set_factor]) rfl
    (by constructor <;> norm_num [current_set_factor]) rfl

/-- Claim C4: after an in-range set command, any acknowledgement other
than the literal "OK" makes the operation fail with the
unexpected-response error and leaves the stored setpoint at its prior
value. -/
theorem set_unexpected_response_fails_unchanged (cfg : SpellmanConfig)
    (st : SpellmanState) (v i : ℚ) (dv di : List Char) (r s : String)
    (hv : 0 ≤ ⌊v / voltage_set_factor cfg⌋ ∧
      ⌊v / voltage_set_factor cfg⌋ < cfg.dac_resolution)
    (hrv : receive dv = Except.ok r) (hrne : r ≠ "OK")
    (hi : 0 ≤ ⌊i / current_set_factor cfg⌋ ∧
      ⌊i / current_set_factor cfg⌋ < cfg.dac_resolution)
    (hri : receive di = Except.ok s) (hsne : s ≠ "OK") :
    set_voltage cfg st v dv =
      (Except.error SpellmanError.valueError, st,
        [Cmd.setV ⌊v / voltage_set_factor cfg⌋]) ∧
    set_current cfg st i di =
      (Except.error SpellmanError.valueError, st,
        [Cmd.setC ⌊i / current_set_factor cfg⌋]) :=
  ⟨set_voltage_unexpected cfg st v dv r hv hrv hrne,
   set_current_unexpected cfg st i di s hi hri hsne⟩

/-- Witness for set_unexpected_response_fails_unchanged: the hardware
answers "FAIL" to a valid 5-unit request on both channels; the prior
setpoints 1 and 2 are retained. -/
theorem set_unexpected_response_fails_unchanged_witness :
    set_voltage ⟨10, 10, 10, 256, 1024⟩ ⟨1, 2⟩ 5 ("FAIL".toList ++ [LF]) =
      (Except.error SpellmanError.valueError, ⟨1, 2⟩,
        [Cmd.setV ⌊(5 : ℚ) / voltage_set_factor ⟨10, 10, 10, 256, 1024⟩⌋]) ∧
    set_current ⟨10, 10, 10, 256, 1024⟩ ⟨1, 2⟩ 5 ("FAIL".toList ++ [LF]) =
      (Except.error SpellmanError.valueError, ⟨1, 2⟩,
        [Cmd.setC ⌊(5 : ℚ) / current_set_factor ⟨10, 10, 10, 256, 1024⟩⌋]) :=
  set_unexpected_response_fails_unchanged ⟨10, 10, 10, 256, 1024⟩ ⟨1, 2⟩ 5 5
    ("FAIL".toList ++ [LF]) ("FAIL".toList ++ [LF]) "FAIL" "FAIL"
    (by constructor <;> norm_num [voltage_set_factor]) rfl (by decide)
    (by constructor <;> norm_num [current_set_factor]) rfl (by decide)

/-- Claim C6: with positive ranges and a positive DAC resolution, a
request that passes the range check and is acknowledged commits a
quantized setpoint that never exceeds the requested value. -/
theorem committed_setpoint_le_requested (cfg : SpellmanConfig)
    (st : SpellmanState) (v i : ℚ) (dv di : List Char)
    (hVr : 0 < cfg.voltage_range) (hCr : 0 < cfg.current_range)
    (hN : 0 < cfg.dac_resolution)
    (hv : 0 ≤ ⌊v / voltage_set_factor cfg⌋ ∧
      ⌊v / voltage_set_factor cfg⌋ < cfg.dac_resolution)
    (hrv : receive dv = Except.ok "OK")
    (hi : 0 ≤ ⌊i / current_set_factor cfg⌋ ∧
      ⌊i / current_set_factor cfg⌋ < cfg.dac_resolution)
    (hri : receive di = Except.ok "OK") :
    voltage_setpoint_read (set_voltage cfg st v dv).2.1 ≤ v ∧
    current_setpoint_read (set_current cfg st i di).2.1 ≤ i := by
  have key : ∀ x f : ℚ, 0 < f → (⌊x / f⌋ : ℚ) * f ≤ x := by
    intro x f hf
    have h1 : ((⌊x / f⌋ : ℤ) : ℚ) ≤ x / f := Int.floor_le (x / f)
    have h2 := mul_le_mul_of_nonneg_right h1 (le_of_lt hf)
    rwa [div_mul_cancel₀ x (ne_of_gt hf)] at h2
  have hNq : (0 : ℚ) < (cfg.dac_resolution : ℚ) := by exact_mod_cast hN
  have hfv : 0 < voltage_set_factor cfg := div_pos hVr hNq
  have hfc : 0 < current_set_factor cfg := div_pos hCr hNq
  rw [set_voltage_commit cfg st v dv hv hrv, set_current_commit cfg st i di hi hri]
  exact ⟨key v _ hfv, key i _ hfc⟩

/-- Witness for committed_setpoint_le_requested at a request of 5.02 on
both channels: the committed value is quantized down, never above the
request. -/
theorem committed_setpoint_le_requested_witness :
    voltage_setpoint_read
        (set_voltage ⟨10, 10, 10, 256, 1024⟩ ⟨1, 2⟩ (251 / 50)
          ("OK".toList ++ [LF])).2.1 ≤ (251 / 50 : ℚ) ∧
    current_setpoint_read
        (set_current ⟨10, 10, 10, 256, 1024⟩ ⟨1, 2⟩ (251 / 50)
          ("OK".toList ++ [LF])).2.1 ≤ (251 / 50 : ℚ) :=
  committed_setpoint_le_requested ⟨10, 10, 10, 256, 1024⟩ ⟨1, 2⟩
    (251 / 50) (251 / 50) ("OK".toList ++ [LF]) ("OK".toList ++ [LF])
    (by norm_num) (by norm_num) (by norm_num)
    (by constructor <;> norm_num [voltage_set_factor]) rfl
    (by constructor <;> norm_num [current_set_factor]) rfl

/-- Claim C7: for positive range and resolution the scaling round trip is
not the identity in general, but its error is bounded by one code step
range / resolution. -/
theorem scaling_roundtrip_error_bounded (x range : ℚ) (resolution : ℤ)
    (hR : 0 < range) (hN : 0 < resolution) :
    |code_to_value (value_to_code x range resolution) range resolution - x| ≤
      range / (resolution : ℚ) ∧
    ∃ y : ℚ,
      code_to_value (value_to_code y range resolution) range resolution ≠ y := by
  have hNq : (0 : ℚ) < (resolution : ℚ) := by exact_mod_cast hN
  have hf : 0 < range / (resolution : ℚ) := div_pos hR hNq
  constructor
  · unfold code_to_value value_to_code
    rw [abs_le]
    constructor
    · have h1 : x / (range / (resolution : ℚ)) - 1 <
          (⌊x / (range / (resolution : ℚ))⌋ : ℚ) :=
        Int.sub_one_lt_floor (x / (range / (resolution : ℚ)))
      have h2 := mul_lt_mul_of_pos_right h1 hf
      have h3 : (x / (range / (resolution : ℚ)) - 1) * (range / (resolution : ℚ)) =
          x - range / (resolution : ℚ) := by
        field_simp
      linarith
    · have h1 : ((⌊x / (range / (resolution : ℚ))⌋ : ℤ) : ℚ) ≤
          x / (range / (resolution : ℚ)) :=
        Int.floor_le (x / (range / (resolution : ℚ)))
      have h2 := mul_le_mul_of_nonneg_right h1 (le_of_lt hf)
      rw [div_mul_cancel₀ x (ne_of_gt hf)] at h2
      linarith
  · refine ⟨range / (resolution : ℚ) / 2, ?_⟩
    unfold code_to_value value_to_code
    have hhalf : range / (resolution : ℚ) / 2 / (range / (resolution : ℚ)) =
        (1 / 2 : ℚ) := by
      field_simp
      ring
    rw [hhalf]
    have hfl : (⌊(1 / 2 : ℚ)⌋ : ℤ) = 0 := by norm_num
    rw [hfl]
    simp
    exact (half_pos hf).ne

/-- Witness for scaling_roundtrip_error_bounded at x = 1/3, range 10,
resolution 4. -/
theorem scaling_roundtrip_error_bounded_witness :
    |code_to_value (value_to_code (1 / 3) 10 4) 10 4 - 1 / 3| ≤
      (10 : ℚ) / ((4 : ℤ) : ℚ) ∧
    ∃ y : ℚ, code_to_value (value_to_code y 10 4) 10 4 ≠ y :=
  scaling_roundtrip_error_bounded (1 / 3) 10 4 (by norm_num) (by norm_num)

/-- Claim C8: enable first commits a zero voltage setpoint and a zero
current setpoint through the set protocol, and only afterwards sends the
":ON" command, returning the acknowledgement text it then receives. -/
theorem enable_commits_zero_setpoints_then_sends_on (cfg : SpellmanConfig)
    (st : SpellmanState) (d1 d2 d3 : List Char) (r : String)
    (hN : 0 < cfg.dac_resolution)
    (h1 : receive d1 = Except.ok "OK") (h2 : receive d2 = Except.ok "OK")
    (h3 : receive d3 = Except.ok r) :
    enable cfg st d1 d2 d3 =
      (Except.ok r, { voltage_setpoint := 0, current_setpoint := 0 },
        [Cmd.setV 0, Cmd.setC 0, Cmd.on]) := by
  have hv : 0 ≤ ⌊(0 : ℚ) / voltage_set_factor cfg⌋ ∧
      ⌊(0 : ℚ) / voltage_set_factor cfg⌋ < cfg.dac_resolution := by
    constructor <;> simp [hN]
  have hi : 0 ≤ ⌊(0 : ℚ) / current_set_factor cfg⌋ ∧
      ⌊(0 : ℚ) / current_set_factor cfg⌋ < cfg.dac_resolution := by
    constructor <;> simp [hN]
  have e1 : set_voltage cfg st 0 d1 =
      (Except.ok (), { st with voltage_setpoint := 0 }, [Cmd.setV 0]) := by
    rw [set_voltage_commit cfg st 0 d1 hv h1]
    simp
  have e2 : set_current cfg { st with voltage_setpoint := 0 } 0 d2 =
      (Except.ok (), { voltage_setpoint := 0, current_setpoint := 0 },
        [Cmd.setC 0]) := by
    rw [set_current_commit cfg { st with voltage_setpoint := 0 } 0 d2 hi h2]
    simp
  simp [enable, e1, e2, h3]

/-- Witness for enable_commits_zero_setpoints_then_sends_on from prior
setpoints 1 and 2, with both set commands acknowledged "OK" and the ":ON"
command answered "ON ok". -/
theorem enable_commits_zero_setpoints_then_sends_on_witness :
    enable ⟨10, 10, 10, 256, 1024⟩ ⟨1, 2⟩ ("OK".toList ++ [LF])
        ("OK".toList ++ [LF]) ("ON ok".toList ++ [LF]) =
      (Except.ok "ON ok", { voltage_setpoint := 0, current_setpoint := 0 },
        [Cmd.setV 0, Cmd.setC 0, Cmd.on]) :=
  enable_commits_zero_setpoints_then_sends_on ⟨10, 10, 10, 256, 1024⟩ ⟨1, 2⟩
    ("OK".toList ++ [LF]) ("OK".toList ++ [LF]) ("ON ok".toList ++ [LF])
    "ON ok" (by norm_num) rfl rfl rfl

lemma set_voltage_state_cases (cfg : SpellmanConfig) (st : SpellmanState)
    (v : ℚ) (d : List Char) :
    (set_voltage cfg st v d).2.1 = st ∨
    (0 ≤ ⌊v / voltage_set_factor cfg⌋ ∧
      ⌊v / voltage_set_factor cfg⌋ < cfg.dac_resolution ∧
      (set_voltage cfg st v d).2.1 =
        { st with voltage_setpoint :=
            (⌊v / voltage_set_factor cfg⌋ : ℚ) * voltage_set_factor cfg }) := by
  by_cases hv : 0 ≤ ⌊v / voltage_set_factor cfg⌋ ∧
      ⌊v / voltage_set_factor cfg⌋ < cfg.dac_resolution
  · cases hr : receive d with
    | ok r =>
      by_cases hok : r = "OK"
      · subst hok
        right
        exact ⟨hv.1, hv.2, by rw [set_voltage_commit cfg st v d hv hr]⟩
      · left
        rw [set_voltage_unexpected cfg st v d r hv hr hok]
    | error e =>
      left
      rw [set_voltage_recv_error cfg st v d e hv hr]
  · left
    rw [set_voltage_reject cfg st v d hv]

lemma set_current_state_cases (cfg : SpellmanConfig) (st : SpellmanState)
    (i : ℚ) (d : List Char) :
    (set_current cfg st i d).2.1 = st ∨
    (0 ≤ ⌊i / current_set_factor cfg⌋ ∧
      ⌊i / current_set_factor cfg⌋ < cfg.dac_resolution ∧
      (set_current cfg st i d).2.1 =
        { st with current_setpoint :=
            (⌊i / current_set_factor cfg⌋ : ℚ) * current_set_factor cfg }) := by
  by_cases hi : 0 ≤ ⌊i / current_set_factor cfg⌋ ∧
      ⌊i / current_set_factor cfg⌋ < cfg.dac_resolution
  · cases hr : receive d with
    | ok r =>
      by_cases hok : r = "OK"
      · subst hok
        right
        exact ⟨hi.1, hi.2, by rw [set_current_commit cfg st i d hi hr]⟩
      · left
        rw [set_current_unexpected cfg st i d r hi hr hok]
    | error e =>
      left
      rw [set_current_recv_error cfg st i d e hi hr]
  · left
    rw [set_current_reject cfg st i d hi]

lemma enable_state_cases (cfg : SpellmanConfig) (st : SpellmanState)
    (d1 d2 d3 : List Char) :
    (enable cfg st d1 d2 d3).2.1 = (set_voltage cfg st 0 d1).2.1 ∨
    (enable cfg st d1 d2 d3).2.1 =
      (set_current cfg (set_voltage cfg st 0 d1).2.1 0 d2).2.1 := by
  unfold enable
  rcases hsv : set_voltage cfg st 0 d1 with ⟨r1, st1, s1⟩
  cases r1 with
  | error e =>
    left
    simp [hsv]
  | ok u =>
    rcases hsc : set_current cfg st1 0 d2 with ⟨r2, st2, s2⟩
    cases r2 with
    | error e =>
      right
      simp [hsv, hsc]
    | ok u2 =>
      cases hr : receive d3 with
      | ok r =>
        right
        simp [hsv, hsc, hr]
      | error e =>
        right
        simp [hsv, hsc, hr]

lemma disable_state_unchanged (st : SpellmanState) (d : List Char) :
    (disable st d).2.1 = st := by
  unfold disable
  cases hr : receive d <;> rfl

lemma IDN_state_unchanged (st : SpellmanState) (d : List Char) :
    (IDN st d).2.1 = st := by
  unfold IDN
  cases hr : receive d <;> rfl

lemma voltage_read_state_unchanged (cfg : SpellmanConfig) (st : SpellmanState)
    (d : List Char) (parse : String → Option ℚ) :
    (voltage_read cfg st d parse).2.1 = st := by
  unfold voltage_read
  cases hr : receive d with
  | ok r => cases hp : parse r <;> simp [hp]
  | error e => rfl

lemma current_read_state_unchanged (cfg : SpellmanConfig) (st : SpellmanState)
    (d : List Char) (parse : String → Option ℚ) :
    (current_read cfg st d parse).2.1 = st := by
  unfold current_read
  cases hr : receive d with
  | ok r => cases hp : parse r <;> simp [hp]
  | error e => rfl

lemma filament_read_state_unchanged (cfg : SpellmanConfig) (st : SpellmanState)
    (d : List Char) (parse : String → Option ℚ) :
    (filament_read cfg st d parse).2.1 = st := by
  unfold filament_read
  cases hr : receive d with
  | ok r => cases hp : parse r <;> simp [hp]
  | error e => rfl

lemma inv_preserved_setV (cfg : SpellmanConfig) (st : SpellmanState) (v : ℚ)
    (d : List Char) (hinv : SpellmanInv cfg st) :
    SpellmanInv cfg (set_voltage cfg st v d).2.1 := by
  rcases set_voltage_state_cases cfg st v d with h | ⟨h1, h2, h⟩
  · rw [h]
    exact hinv
  · rw [h]
    exact ⟨⟨⌊v / voltage_set_factor cfg⌋, h1, h2, rfl⟩, hinv.2⟩

lemma inv_preserved_setC (cfg : SpellmanConfig) (st : SpellmanState) (i : ℚ)
    (d : List Char) (hinv : SpellmanInv cfg st) :
    SpellmanInv cfg (set_current cfg st i d).2.1 := by
  rcases set_current_state_cases cfg st i d with h | ⟨h1, h2, h⟩
  · rw [h]
    exact hinv
  · rw [h]
    exact ⟨hinv.1, ⟨⌊i / current_set_factor cfg⌋, h1, h2, rfl⟩⟩

lemma reachable_inv (cfg : SpellmanConfig) (st : SpellmanState)
    (hN : 0 < cfg.dac_resolution) (h : Reachable cfg st) :
    SpellmanInv cfg st := by
  induction h with
  | init =>
    exact ⟨⟨0, le_refl 0, hN, by simp [init_state]⟩,
      ⟨0, le_refl 0, hN, by simp [init_state]⟩⟩
  | stepSetV st v d hprev ih =>
    exact inv_preserved_setV cfg st v d ih
  | stepSetC st i d hprev ih =>
    exact inv_preserved_setC cfg st i d ih
  | stepInterlock st d hprev ih =>
    rw [interlock_state_unchanged]
    exact ih
  | stepEnable st d1 d2 d3 hprev ih =>
    rcases enable_state_cases cfg st d1 d2 d3 with h | h
    · rw [h]
      exact inv_preserved_setV cfg st 0 d1 ih
    · rw [h]
      exact inv_preserved_setC cfg _ 0 d2 (inv_preserved_setV cfg st 0 d1 ih)
  | stepDisable st d hprev ih =>
    rw [disable_state_unchanged]
    exact ih
  | stepIDN st d hprev ih =>
    rw [IDN_state_unchanged]
    exact ih
  | stepReadV st d parse hprev ih =>
    rw [voltage_read_state_unchanged]
    exact ih
  | stepReadC st d parse hprev ih =>
    rw [current_read_state_unchanged]
    exact ih
  | stepReadFil st d parse hprev ih =>
    rw [filament_read_state_unchanged]
    exact ih

lemma quantized_in_interval (cfg : SpellmanConfig) (rng x : ℚ)
    (hr : 0 < rng) (hN : 0 < cfg.dac_resolution)
    (hq : SetpointQuantized cfg (rng / (cfg.dac_resolution : ℚ)) x) :
    0 ≤ x ∧ x < rng := by
  rcases hq with ⟨k, hk0, hkN, heq⟩
  have hNq : (0 : ℚ) < (cfg.dac_resolution : ℚ) := by exact_mod_cast hN
  have hf : 0 < rng / (cfg.dac_resolution : ℚ) := div_pos hr hNq
  subst heq
  constructor
  · exact mul_nonneg (by exact_mod_cast hk0) (le_of_lt hf)
  · have hkq : (k : ℚ) < (cfg.dac_resolution : ℚ) := by exact_mod_cast hkN
    have hlt := mul_lt_mul_of_pos_right hkq hf
    have hE : (cfg.dac_resolution : ℚ) * (rng / (cfg.dac_resolution : ℚ)) = rng := by
      field_simp
    linarith

/-- Claim C9: with positive ranges and DAC resolution, every state
reachable from initialization stores, on each channel, a setpoint equal
to k * set_factor for some integer code k in [0, dac_resolution), hence a
value in [0, range). -/
theorem reachable_setpoints_quantized_in_range (cfg : SpellmanConfig)
    (st : SpellmanState) (hN : 0 < cfg.dac_resolution)
    (hVr : 0 < cfg.voltage_range) (hCr : 0 < cfg.current_range)
    (h : Reachable cfg st) :
    SpellmanInv cfg st ∧
    (0 ≤ st.voltage_setpoint ∧ st.voltage_setpoint < cfg.voltage_range) ∧
    (0 ≤ st.current_setpoint ∧ st.current_setpoint < cfg.current_range) := by
  have hinv := reachable_inv cfg st hN h
  exact ⟨hinv,
    quantized_in_interval cfg cfg.voltage_range st.voltage_setpoint hVr hN hinv.1,
    quantized_in_interval cfg cfg.current_range st.current_setpoint hCr hN hinv.2⟩

/-- Witness for reachable_setpoints_quantized_in_range: the state reached
by one committed 5-unit voltage set from initialization. -/
theorem reachable_setpoints_quantized_in_range_witness :
    SpellmanInv ⟨10, 10, 10, 256, 1024⟩
      (set_voltage ⟨10, 10, 10, 256, 1024⟩ init_state 5 ("OK".toList ++ [LF])).2.1 ∧
    (0 ≤ (set_voltage ⟨10, 10, 10, 256, 1024⟩ init_state 5
        ("OK".toList ++ [LF])).2.1.voltage_setpoint ∧
      (set_voltage ⟨10, 10, 10, 256, 1024⟩ init_state 5
        ("OK".toList ++ [LF])).2.1.voltage_setpoint <
        (⟨10, 10, 10, 256, 1024⟩ : SpellmanConfig).voltage_range) ∧
    (0 ≤ (set_voltage ⟨10, 10, 10, 256, 1024⟩ init_state 5
        ("OK".toList ++ [LF])).2.1.current_setpoint ∧
      (set_voltage ⟨10, 10, 10, 256, 1024⟩ init_state 5
        ("OK".toList ++ [LF])).2.1.current_setpoint <
        (⟨10, 10, 10, 256, 1024⟩ : SpellmanConfig).current_range) :=
  reachable_setpoints_quantized_in_range ⟨10, 10, 10, 256, 1024⟩ _
    (by norm_num) (by norm_num) (by norm_num)
    (Reachable.stepSetV init_state 5 ("OK".toList ++ [LF]) Reachable.init)
